import Mathlib

/-!
Verification development for the ister bare-metal installer
(`src/ister.py`).  The Python source is shallowly embedded: every
function below is a direct transcription of the corresponding Python
function, with these conventions:

* a Python function that can raise becomes `Except String _` when the
  distinct message matters, otherwise `Option _`; any uncaught runtime
  error (KeyError, NameError, TypeError, IndexError) is modelled as
  failure of the whole function;
* JSON dictionary fields are modelled as structure fields.  For the
  disk-layout entries a missing field and the falsy value (`""` / `0`)
  are conflated, because the source only ever distinguishes them through
  Python truthiness (`if not x`).  For `Users` entries `uid`, `sudo`,
  `key` and `username` are kept as `Option` so that a present-but-falsy
  value (uid `0`, empty sudo string) can be distinguished from an absent
  one when stating the spec's claims;
* machine integers are `Int`/`Nat`; Python string operations
  (`find`, `split`, slicing, `str()` of an int) are re-implemented over
  `List Char` below;
* external processes (blkid, mount, parted, urlopen, the filesystem)
  are parameters: their observable output is passed in as data.
-/

namespace Ister

/-! ## Python string primitives -/

/-- Model of `sub.isPrefixOf s` on character lists: `listStarts pre s`
is true when `pre` is an initial segment of `s`. -/
def listStarts : List Char → List Char → Bool
  | [], _ => true
  | _ :: _, [] => false
  | a :: pre, b :: s => a == b && listStarts pre s

/-- Model of Python `s.startswith(pre)` over `String`. -/
def strStarts (pre s : String) : Bool :=
  listStarts pre.data s.data

/-- Helper for `pyFind`: first index `≥ i` at which `sub` occurs in the
remaining characters, `-1` when it never occurs. -/
def pyFindGo (sub : List Char) : List Char → Nat → Int
  | [], i => if listStarts sub [] then (i : Int) else -1
  | c :: t, i => if listStarts sub (c :: t) then (i : Int) else pyFindGo sub t (i + 1)

/-- Model of Python `s.find(sub)`: lowest index at which `sub` occurs in
`s`, `-1` when it does not occur. -/
def pyFind (s sub : String) : Int :=
  pyFindGo sub.data s.data 0

/-- Model of Python `s.split(c)` for a single-character separator:
splits at every occurrence, keeping empty pieces. -/
def splitChar (c : Char) : List Char → List (List Char)
  | [] => [[]]
  | a :: rest =>
    let r := splitChar c rest
    if a == c then [] :: r
    else
      match r with
      | [] => [[a]]
      | h :: t => (a :: h) :: t

/-- String wrapper around `splitChar`. -/
def pySplit (c : Char) (s : String) : List String :=
  (splitChar c s.data).map (fun l => String.mk l)

/-- Model of Python `s[:-1]`. -/
def dropLastStr (s : String) : String :=
  String.mk s.data.dropLast

/-- Model of Python `s[-1]` with an (unreachable at use sites) default. -/
def lastCharD (s : String) (d : Char) : Char :=
  s.data.getLastD d

/-- Model of Python `os.path.basename`: the part after the last `/`. -/
def basenameStr (s : String) : String :=
  (pySplit '/' s).getLastD ("")

/-- Value of the digit string, `none` on empty input or a non-digit. -/
def digitsValGo : List Char → Nat → Option Nat
  | [], acc => some acc
  | c :: rest, acc =>
    if c.isDigit then digitsValGo rest (acc * 10 + (c.toNat - 48)) else none

/-- Model of Python `int(s)` restricted to the plain `[+|-]digits` forms
the templates use (surrounding whitespace and `_` separators are not
modelled). -/
def pyIntOfStr (s : String) : Option Int :=
  match s.data with
  | [] => none
  | '-' :: ds =>
    if ds == [] then none
    else (digitsValGo ds 0).map (fun n => -(n : Int))
  | '+' :: ds =>
    if ds == [] then none
    else (digitsValGo ds 0).map (fun n => (n : Int))
  | ds => (digitsValGo ds 0).map (fun n => (n : Int))

/-! ## Association lists standing in for Python dicts

Python dicts preserve insertion order; `assocSet` updates in place and
appends new keys at the end, exactly as dict assignment does. -/

/-- Dict lookup (`d.get(k)` when the result is inspected for presence). -/
def assocGet {β : Type} (m : List (String × β)) (k : String) : Option β :=
  match m.find? (fun p => p.fst == k) with
  | some p => some p.snd
  | none => none

/-- Dict assignment `d[k] = v`. -/
def assocSet {β : Type} (m : List (String × β)) (k : String) (v : β) : List (String × β) :=
  match m with
  | [] => [(k, v)]
  | (k0, v0) :: rest => if k0 == k then (k, v) :: rest else (k0, v0) :: assocSet rest k v

/-! ## Data model (section 3 of the spec, fields as read by the source) -/

/-- One `PartitionLayout` entry: keys `disk`, `partition`, `size`,
`type`.  Missing string fields are conflated with `""` and a missing
partition index with `0`, the values Python truthiness cannot tell
apart from absence anywhere in the source. -/
structure PartitionEntry where
  disk : String
  partition : Nat
  size : String
  ptype : String
deriving DecidableEq

/-- One `FilesystemTypes` entry: keys `disk`, `partition`, `type`,
optional `options`. -/
structure FsEntry where
  disk : String
  partition : Nat
  ftype : String
  options : String
deriving DecidableEq

/-- One `PartitionMountPoints` entry: keys `disk`, `partition`,
`mount`, optional `options`. -/
structure MountEntry where
  disk : String
  partition : Nat
  mount : String
  options : String
deriving DecidableEq

/-- One `Users` entry (`sshKey` models the JSON field named `key`,
`sudoMode` the field named `sudo`).  All four fields are `Option` so
that claims can distinguish a present falsy value (uid `0`, empty
string) from an absent key; the source itself only tests truthiness. -/
structure User where
  username : Option String
  uid : Option Int
  sshKey : Option String
  sudoMode : Option String
deriving DecidableEq

/-- The template root object.  `paritionLayout` holds the value at the
misspelled key `"ParitionLayout"` which `validate_template`
(src line 580) reads; the correctly spelled key is `partitionLayout`. -/
structure Template where
  imageSourceType : String
  imageSourceLocation : String
  partitionLayout : Option (List PartitionEntry)
  paritionLayout : Option (List PartitionEntry)
  filesystemTypes : Option (List FsEntry)
  partitionMountPoints : Option (List MountEntry)
  users : Option (List User)
deriving DecidableEq

/-- Python truthiness of an optional list (`template.get(k)` used in a
boolean position): present and nonempty. -/
def truthyL {α : Type} : Option (List α) → Bool
  | none => false
  | some l => !(l.isEmpty)

/-- Python truthiness of an optional string. -/
def truthyS : Option String → Bool
  | none => false
  | some s => !(s == "")

/-- Python truthiness of an optional integer (`0` is falsy). -/
def truthyI : Option Int → Bool
  | none => false
  | some n => !(n == 0)

/-! ## DiskResolver (`select_disk`, `find_target_disk`, src lines 30-81) -/

/-- Transcription of `select_disk` (src lines 30-38): the target is
`sdb` when the install disk string is found at position 0 of
`/dev/sda`, else `sda`. -/
def select_disk (install_disk : String) : String :=
  if pyFind install_disk ("/dev/sda") == 0 then "sdb" else "sda"

/-- The marker `UUID="53E0-A0AB"` the source searches for in blkid
output (src line 53). -/
def installUuidMarker : String := "UUID=\"53E0-A0AB\""

/-- Observable system state consumed by `find_target_disk`:
which device paths exist, and the line output of the `blkid` and
`mount` subprocesses (`none` models the subprocess call failing). -/
structure Env where
  devExists : String → Bool
  blkid : Option (List String)
  mountOut : Option (List String)

/-- Transcription of `find_target_disk` (src lines 40-81). -/
def find_target_disk (env : Env) : Except String String :=
  if !(env.devExists ("/dev/sda2")) then .ok ("sda")
  else if !(env.devExists ("/dev/sdb")) then .error ("No target disk available")
  else if !(env.devExists ("/dev/sdb2")) then .ok ("sdb")
  else
    match env.blkid with
    | none => .error ("Call to blkid failed")
    | some lines =>
      match lines.find? (fun l => pyFind l installUuidMarker == 0) with
      | some l => .ok (select_disk l)
      | none =>
        match env.mountOut with
        | none => .error ("Call to mount failed")
        | some mlines =>
          match mlines.find? (fun l => pyFind l ("/dev/sd") == 0 && !(pyFind l ("on / ") == -1)) with
          | some l => .ok (select_disk l)
          | none => .error ("Could not distinguish install disk")

/-! ## Default layout synthesis (`insert_fs_defaults`, src lines 83-99) -/

/-- Transcription of `insert_fs_defaults`, parametrised by the resolved
target disk `dev` (the source obtains it from `find_target_disk`).
Overwrites the three disk-layout fields of the template. -/
def insert_fs_defaults (dev : String) (t : Template) : Template :=
  Template.mk t.imageSourceType t.imageSourceLocation
    (some [PartitionEntry.mk dev 1 ("512M") ("EFI"), PartitionEntry.mk dev 2 ("rest") ("linux")])
    t.paritionLayout
    (some [FsEntry.mk dev 1 ("vfat") (""), FsEntry.mk dev 2 ("ext4") ("")])
    (some [MountEntry.mk dev 1 ("/boot") (""), MountEntry.mk dev 2 ("/") ("")])
    t.users

/-! ## Disk template validation (`validate_disk_template`, src 438-530) -/

def accepted_ptypes : List String := ["EFI", "linux", "swap"]

def accepted_sizes : List Char := ['M', 'G', 'T']

def accepted_fstypes : List String :=
  ["ext2", "ext3", "ext4", "vfat", "btrfs", "xfs", "swap"]

/-- Dict key `disk + str(part)` used throughout the source. -/
def layoutKey (disk : String) (part : Nat) : String :=
  disk ++ toString part

/-- Loop state of the first `validate_disk_template` loop:
`sizes` is `pl_disk_part_to_size`, `diskParts` is `pl_disk_to_parts`,
`hasEfi` is `has_efi`. -/
structure PLState where
  sizes : List (String × String)
  diskParts : List (String × List Nat)
  hasEfi : Bool
deriving DecidableEq

/-- Transcription of the first loop of `validate_disk_template`
(src lines 462-488).  Note the faithful transcription of lines
484-487: `pl_disk_to_parts[disk]` is only read and appended to under a
`get` guard that requires the key to already be present, and no branch
ever creates a key, so `diskParts` can never grow. -/
def checkLayout : List PartitionEntry → PLState → Except String PLState
  | [], st => .ok st
  | e :: rest, st =>
    if e.disk == "" || e.partition == 0 || e.size == "" || e.ptype == "" then
      .error ("Invalid PartitonLayout section")
    else if !(accepted_sizes.contains (lastCharD e.size ' ')) && !(e.size == "rest") then
      .error ("Invalid size specified in section")
    else if !(accepted_ptypes.contains e.ptype) then
      .error ("Invalid partiton type")
    else if e.ptype == "EFI" && st.hasEfi then
      .error ("Multiple EFI partitions defined")
    else
      let hasEfi := st.hasEfi || e.ptype == "EFI"
      let sizes := assocSet st.sizes (layoutKey e.disk e.partition) e.size
      match assocGet st.diskParts e.disk with
      | some parts =>
        if parts == [] then
          checkLayout rest (PLState.mk sizes st.diskParts hasEfi)
        else if parts.contains e.partition then
          .error ("Duplicate disk and partition entry in PartitionLayout")
        else
          checkLayout rest (PLState.mk sizes (assocSet st.diskParts e.disk (parts ++ [e.partition])) hasEfi)
      | none =>
        checkLayout rest (PLState.mk sizes st.diskParts hasEfi)

/-- Transcription of the second loop of `validate_disk_template`
(src lines 493-497).  Its body indexes `pl_disk_part_to_size[d + p]`
where `d` is a `str` and `p` an `int`, so executing the body for any
partition raises `TypeError`; with an empty parts list the inner loop
does not run.  Either way the loop is unreachable in practice because
`checkLayout` never populates `diskParts`. -/
def restCheck (sizes : List (String × String)) : List (String × List Nat) → Except String Unit
  | [] => .ok ()
  | (_, parts) :: rest =>
    if parts == [] then restCheck sizes rest
    else .error ("TypeError: can only concatenate str (not int) to str")

/-- Transcription of the `FilesystemTypes` loop (src lines 499-515).
Line 503 of the source tests the Python builtin `type` (always truthy)
instead of the entry's filesystem type, so a missing type is only
caught by the `accepted_fstypes` membership test.  Returns the
accumulated `ft_disk_part` key list. -/
def checkFsTypes (sizes : List (String × String)) : List FsEntry → List String → Except String (List String)
  | [], acc => .ok acc
  | f :: rest, acc =>
    if f.disk == "" || f.partition == 0 then
      .error ("Invalid FilesystemTypes section")
    else if !(accepted_fstypes.contains f.ftype) then
      .error ("Invalid filesystem type")
    else
      let k := layoutKey f.disk f.partition
      if acc.contains k then
        .error ("Duplicate disk and partition entry in FilesystemTypes")
      else if (assocGet sizes k).isNone then
        .error ("disk partition used in FilesystemTypes not found in PartitionLayout")
      else
        checkFsTypes sizes rest (acc ++ [k])

/-- Transcription of the `PartitionMountPoints` loop (src 517-530). -/
def checkMounts (ftKeys : List String) : List MountEntry → List String → Except String Unit
  | [], _ => .ok ()
  | p :: rest, acc =>
    if p.disk == "" || p.partition == 0 || p.mount == "" then
      .error ("Invalid PartitionMountPoints section")
    else
      let k := layoutKey p.disk p.partition
      if acc.contains k then
        .error ("Duplicate disk and partition entry in PartitionMountPoints")
      else if !(ftKeys.contains k) then
        .error ("disk partition used in PartitionMountPoints not found in FilesystemTypes")
      else
        checkMounts ftKeys rest (acc ++ [k])

/-- Transcription of `validate_disk_template` (src lines 438-530). -/
def validate_disk_template (t : Template) : Except String Unit :=
  if !(truthyL t.partitionLayout) then .error ("Invalid template, missing PartitionLayout")
  else if !(truthyL t.filesystemTypes) then .error ("Invalid template, missing FilesystemTypes")
  else if !(truthyL t.partitionMountPoints) then .error ("Invalid template, missing PartitionMountPoints")
  else
    match checkLayout (t.partitionLayout.getD []) (PLState.mk [] [] false) with
    | .error e => .error e
    | .ok st =>
      if !st.hasEfi then .error ("No EFI partition defined")
      else
        match restCheck st.sizes st.diskParts with
        | .error e => .error e
        | .ok _ =>
          match checkFsTypes st.sizes (t.filesystemTypes.getD []) [] with
          | .error e => .error e
          | .ok ftKeys => checkMounts ftKeys (t.partitionMountPoints.getD []) []

/-! ## User validation (`validate_user_template`, src lines 532-568) -/

/-- The value `ctypes.c_uint32(-1).value` (src line 540). -/
def maxUid : Int := 4294967295

/-- Transcription of `validate_user_template` (src lines 532-568),
parametrised by `fetchOk`, the observable success of
`urllib.request.urlopen` on a key URL (a failing fetch raises out of
the function).  The accumulators are the `unames` and `uids` dicts;
only their keys are ever consulted, so they are kept as key lists.
Per the source, `if uid:` skips a present uid of `0` entirely, the
duplicate-uid test precedes the range test, and only in-range uids are
recorded. -/
def validate_user_template (fetchOk : String → Bool) : List User → List String → List Int → Except String Unit
  | [], _, _ => .ok ()
  | u :: rest, unames, uids =>
    if !(truthyS u.username) then .error ("Missing username for user entry")
    else
      let name := u.username.getD ("")
      if unames.contains name then .error ("Duplicate username")
      else
        let uidStep : Except String (List Int) :=
          match u.uid with
          | none => .ok uids
          | some n =>
            if n == 0 then .ok uids
            else if uids.contains n then .error ("Duplicate UID")
            else if n < 1 || n > maxUid then .error ("Invalid UID")
            else .ok (uids ++ [n])
        match uidStep with
        | .error e => .error e
        | .ok uids2 =>
          if truthyS u.sshKey && !(fetchOk (u.sshKey.getD (""))) then
            .error ("urlopen failed for user key")
          else if truthyS u.sudoMode && !(u.sudoMode.getD ("") == "password") then
            .error ("Invalid sudo option")
          else
            validate_user_template fetchOk rest (unames ++ [name]) uids2

/-! ## Template validation (`validate_template`, src lines 570-594) -/

/-- Transcription of `validate_template` (src lines 570-594),
parametrised by the resolved target disk `dev` (used only when the
default layout is synthesised) and by `fetchOk` for user-key fetches.
Returns the template as left behind by validation (the source mutates
it in place when `insert_fs_defaults` runs).  Note line 580 of the
source tests the misspelled key `"ParitionLayout"`. -/
def validate_template (dev : String) (fetchOk : String → Bool) (t : Template) : Except String Template :=
  if t.imageSourceType == "" then .error ("Missing ImageSourceType field")
  else if t.imageSourceLocation == "" then .error ("Missing ImageSourceLocation field")
  else
    let diskInfo := truthyL t.paritionLayout || truthyL t.filesystemTypes || truthyL t.partitionMountPoints
    let step : Except String Template :=
      if diskInfo then
        match validate_disk_template t with
        | .error e => .error e
        | .ok _ => .ok t
      else .ok (insert_fs_defaults dev t)
    match step with
    | .error e => .error e
    | .ok t2 =>
      match t2.users with
      | none => .ok t2
      | some us =>
        if us.isEmpty then .ok t2
        else
          match validate_user_template fetchOk us [] [] with
          | .error e => .error e
          | .ok _ => .ok t2

/-! ## Partition planning (`create_partitions`, src lines 109-143) -/

/-- The unit multiplier dict `match` of src line 112; `none` models the
KeyError raised on any other unit character. -/
def unitMult : Char → Option Nat
  | 'M' => some 1
  | 'G' => some 1024
  | 'T' => some (1024 * 1024)
  | _ => none

/-- Sort key of src line 122: `v["disk"] + str(v["partition"])`. -/
def pkey (e : PartitionEntry) : String :=
  e.disk ++ toString e.partition

/-- Code-point lexicographic `<=` on character lists, the order Python
uses to compare `str` values. -/
def charsLe : List Char → List Char → Bool
  | [], _ => true
  | _ :: _, [] => false
  | a :: as, b :: bs =>
    if a.toNat < b.toNat then true
    else if b.toNat < a.toNat then false
    else charsLe as bs

/-- String wrapper around `charsLe`. -/
def strLe (a b : String) : Bool :=
  charsLe a.data b.data

/-- Stable insertion used to model Python `sorted` with the string key
`pkey`: an element is placed after every element whose key is `≤` its
own, preserving the original order of equal keys. -/
def insertByKey (x : PartitionEntry) : List PartitionEntry → List PartitionEntry
  | [] => [x]
  | y :: ys => if strLe (pkey y) (pkey x) then y :: insertByKey x ys else x :: y :: ys

/-- Model of `sorted(template["PartitionLayout"], key=...)`
(src line 122): a stable sort by the lexicographic order of `pkey`. -/
def sortByKey : List PartitionEntry → List PartitionEntry
  | [] => []
  | x :: xs => insertByKey x (sortByKey xs)

/-- The role-to-parted-type map of src lines 130-135. -/
def hintOf (ptype : String) : String :=
  if ptype == "EFI" then "fat32"
  else if ptype == "swap" then "linux-swap"
  else "ext2"

/-- One planned `mkpart` invocation: the data interpolated into the
parted command of src lines 136-137 plus the raw role (which decides
the follow-up boot-flag command). -/
structure PlanEntry where
  disk : String
  partition : Nat
  ptype : String
  fsHint : String
  start : Int
  stop : Int
deriving DecidableEq

/-- End offset of one partition (src lines 125-129): `-1` for the
`"rest"` sentinel, otherwise `int(size[:-1]) * mult + start`.  `none`
models the KeyError / ValueError / NameError the source would raise on
a bad unit, a non-numeric prefix, or an unset `start`. -/
def partEnd (e : PartitionEntry) (startOpt : Option Int) : Option Int :=
  if e.size == "rest" then some (-1)
  else
    match unitMult (lastCharD e.size ' ') with
    | none => none
    | some m =>
      match pyIntOfStr (dropLastStr e.size) with
      | none => none
      | some v =>
        match startOpt with
        | none => none
        | some s => some (v * (m : Int) + s)

/-- The planning loop of src lines 122-143 over an already sorted entry
list.  `cdisk` is the running `cdisk` variable (initially `""`) and
`prev` the running `start` (initially unset, modelled `none`; using it
before assignment is a NameError, modelled as overall failure — the
command of src line 136 interpolates `start` for every partition, the
`"rest"` case included). -/
def planParts : List PartitionEntry → String → Option Int → Option (List PlanEntry)
  | [], _, _ => some []
  | e :: rest, cdisk, prev =>
    let startOpt := if e.disk == cdisk then prev else some 0
    match startOpt with
    | none => none
    | some s =>
      match partEnd e startOpt with
      | none => none
      | some en =>
        match planParts rest e.disk (some en) with
        | none => none
        | some tail => some (PlanEntry.mk e.disk e.partition e.ptype (hintOf e.ptype) s en :: tail)

/-- The ordered `mkpart` plan of `create_partitions` (src 109-143) for
a template: its `PartitionLayout`, sorted by `pkey`, run through the
planning loop.  The per-disk `mklabel gpt` pass (src lines 119-121)
iterates a Python `set`, whose order is unspecified and which no claim
concerns, so it is not modelled. -/
def create_partitions_plan (t : Template) : Option (List PlanEntry) :=
  match t.partitionLayout with
  | none => none
  | some pl => planParts (sortByKey pl) "" none

/-- One external parted invocation issued by `create_partitions`:
either the `mkpart` of src lines 136-137 or the boot-flag command of
src line 140. -/
inductive Cmd where
  | mkpart (disk : String) (fsHint : String) (start : Int) (stop : Int)
  | setBoot (disk : String) (partition : Nat)
deriving DecidableEq

/-- Commands issued for one planned partition: the `mkpart`, followed
immediately by the boot-flag command when the entry's role is EFI
(src lines 138-141). -/
def entryCmds (e : PlanEntry) : List Cmd :=
  Cmd.mkpart e.disk e.fsHint e.start e.stop ::
    (if e.ptype == "EFI" then [Cmd.setBoot e.disk e.partition] else [])

/-- Commands of a whole plan, in plan order. -/
def planCmds (l : List PlanEntry) : List Cmd :=
  (l.map entryCmds).flatten

/-- The full ordered command sequence of `create_partitions` (minus the
unordered `mklabel` pass, see `create_partitions_plan`). -/
def create_partitions_cmds (t : Template) : Option (List Cmd) :=
  (create_partitions_plan t).map planCmds

/-! ## UUID resolution (`get_uuids`, src lines 203-256) -/

/-- One record of the `part_layout` merge dict: the copied
`PartitionLayout` entry whose `type` is overwritten by the
`FilesystemTypes` merge and which gains `mount` / `options` keys. -/
structure MergeRec where
  disk : String
  partition : Nat
  size : String
  ftype : String
  mount : Option String
  options : Option String
deriving DecidableEq

/-- One element of the list returned by `get_uuids`: a merge record
together with the UUID discovered in the blkid output. -/
structure ResolvedPart where
  info : MergeRec
  uuid : String
deriving DecidableEq

/-- Initial merge record of one layout entry (src lines 212-216): a
copy whose `mount` is set to `"none"` when the role is swap. -/
def mkMergeRec (e : PartitionEntry) : MergeRec :=
  MergeRec.mk e.disk e.partition e.size e.ptype
    (if e.ptype == "swap" then some ("none") else none) none

/-- The `PartitionLayout` pass of `get_uuids` (src lines 212-216). -/
def mergeLayout : List PartitionEntry → List (String × MergeRec) → List (String × MergeRec)
  | [], m => m
  | e :: rest, m => mergeLayout rest (assocSet m (layoutKey e.disk e.partition) (mkMergeRec e))

/-- The `FilesystemTypes` pass of `get_uuids` (src lines 218-220);
`none` models the KeyError on a key absent from the layout map. -/
def mergeFs : List FsEntry → List (String × MergeRec) → Option (List (String × MergeRec))
  | [], m => some m
  | f :: rest, m =>
    let k := layoutKey f.disk f.partition
    match assocGet m k with
    | none => none
    | some r =>
      mergeFs rest (assocSet m k (MergeRec.mk r.disk r.partition r.size f.ftype r.mount r.options))

/-- The `PartitionMountPoints` pass of `get_uuids` (src lines 222-227):
appends the key to `used_disk_part` first, then overwrites `mount` and,
when the entry's options are truthy, `options`. -/
def mergePm : List MountEntry → List (String × MergeRec) → List String → Option (List (String × MergeRec) × List String)
  | [], m, used => some (m, used)
  | p :: rest, m, used =>
    let k := layoutKey p.disk p.partition
    let used2 := used ++ [k]
    match assocGet m k with
    | none => none
    | some r =>
      let r2 := MergeRec.mk r.disk r.partition r.size r.ftype (some p.mount)
        (if p.options == "" then r.options else some p.options)
      mergePm rest (assocSet m k r2) used2

/-- Last `UUID="..."` attribute of a blkid line's fields (src lines
248-250), `""` when no field carries one. -/
def uuidOfFields (fields : List String) : String :=
  fields.foldl
    (fun acc f => if strStarts ("UUID=\"") f then (splitChar '"' f.data).map String.mk |>.getD 1 ("") else acc)
    ("")

/-- The blkid scanning loop of `get_uuids` (src lines 233-254): skip
`/dev/nbd0*` lines, skip device basenames absent from the merge map or
from `used_disk_part`, fail on a tracked device without a UUID
attribute, and append the merged record with its UUID otherwise.
(Python appends an alias of the mutable dict record; repeated lines for
one device — which real blkid output does not produce — are therefore
modelled with their own line's UUID each.) -/
def scanLines (m : List (String × MergeRec)) (used : List String) : List String → Option (List ResolvedPart)
  | [] => some []
  | line :: rest =>
    let pline := pySplit ' ' line
    let dev := dropLastStr (pline.headD (""))
    if strStarts ("/dev/nbd0") dev then scanLines m used rest
    else
      let dp := basenameStr dev
      match assocGet m dp with
      | none => scanLines m used rest
      | some r =>
        if !(used.contains dp) then scanLines m used rest
        else
          let uuid := uuidOfFields pline
          if uuid == "" then none
          else
            match scanLines m used rest with
            | none => none
            | some tail => some (ResolvedPart.mk r uuid :: tail)

/-- Transcription of `get_uuids` (src lines 203-256), with the blkid
output lines passed in; `none` also models the KeyError on a template
missing one of the three layout keys. -/
def get_uuids (t : Template) (blkidLines : List String) : Option (List ResolvedPart) :=
  match t.partitionLayout, t.filesystemTypes, t.partitionMountPoints with
  | some pl, some ft, some pm =>
    let m0 := mergeLayout pl []
    match mergeFs ft m0 with
    | none => none
    | some m1 =>
      match mergePm pm m1 [] with
      | none => none
      | some (m2, used) => scanLines m2 used blkidLines
  | _, _, _ => none

/-! ## Boot loader update (`update_loader`, src lines 258-275) -/

/-- The uuid-finding loop of src lines 263-266: first entry whose
`mount` is `"/"`; reading a record without a `mount` key is a KeyError
and falling off the loop leaves `uuid` unbound (NameError), both
modelled as `none`. -/
def findRootUuid : List ResolvedPart → Option String
  | [] => none
  | p :: rest =>
    match p.info.mount with
    | none => none
    | some m => if m == "/" then some p.uuid else findRootUuid rest

/-- Transcription of `update_loader` (src lines 258-275) as a transform
on the loader file's line list (`readlines` keeps the newline on every
line but possibly the last): index 3 is replaced by the root-UUID
options line; fewer than four lines is an IndexError, caught and
re-raised by the source, modelled `none`. -/
def update_loader (uuids : List ResolvedPart) (lines : List String) : Option (List String) :=
  match findRootUuid uuids with
  | none => none
  | some u =>
    if lines.length < 4 then none
    else some (lines.set 3 ("options root=UUID=" ++ u ++ "\n"))

/-! ## Fstab generation (`update_fstab`, src lines 277-301) -/

/-- One fstab line (src lines 289-294): tab-separated
`UUID=<uuid> <mount> <type> <options>`, where the options string is the
entry's when truthy and otherwise the default `"rw,relatime 0 0"`
(src line 282) — the literal `0 0` lives inside the default string.
A record without a `mount` key is a KeyError, caught and re-raised by
the source, modelled `none`. -/
def fstabLine (p : ResolvedPart) : Option String :=
  match p.info.mount with
  | none => none
  | some m =>
    let opts :=
      match p.info.options with
      | some o => if o == "" then "rw,relatime 0 0" else o
      | none => "rw,relatime 0 0"
    some ("UUID=" ++ p.uuid ++ "\t" ++ m ++ "\t" ++ p.info.ftype ++ "\t" ++ opts ++ "\n")

/-- The full content written over the target's `/etc/fstab`
(src lines 277-301): one line per resolved partition, in list order. -/
def update_fstab_lines : List ResolvedPart → Option (List String)
  | [] => some []
  | p :: rest =>
    match fstabLine p with
    | none => none
    | some s =>
      match update_fstab_lines rest with
      | none => none
      | some tail => some (s :: tail)

/-! ## Concrete templates used in counterexamples and witnesses -/

/-- Template whose `PartitionLayout` carries two entries with the same
`(sdb, 1)` key (second one sized `"rest"`), otherwise well formed. -/
def tDup : Template :=
  Template.mk ("local") ("file:///image.xz")
    (some [PartitionEntry.mk ("sdb") 1 ("512M") ("EFI"), PartitionEntry.mk ("sdb") 1 ("rest") ("linux")])
    none
    (some [FsEntry.mk ("sdb") 1 ("vfat") ("")])
    (some [MountEntry.mk ("sdb") 1 ("/") ("")])
    none


/-- Template whose `"rest"`-sized partition is not the highest index on
its disk (partition 1 of 2 on sda). -/
def tRestBad : Template :=
  Template.mk ("local") ("file:///image.xz")
    (some [PartitionEntry.mk ("sda") 1 ("rest") ("linux"), PartitionEntry.mk ("sda") 2 ("512M") ("EFI")])
    none
    (some [FsEntry.mk ("sda") 1 ("ext4") (""), FsEntry.mk ("sda") 2 ("vfat") ("")])
    (some [MountEntry.mk ("sda") 1 ("/") (""), MountEntry.mk ("sda") 2 ("/boot") ("")])
    none


/-- Well-formed template whose `"rest"`-sized partition is the highest
index on its disk. -/
def tRestGood : Template :=
  Template.mk ("local") ("file:///image.xz")
    (some [PartitionEntry.mk ("sda") 1 ("512M") ("EFI"), PartitionEntry.mk ("sda") 2 ("rest") ("linux")])
    none
    (some [FsEntry.mk ("sda") 1 ("vfat") (""), FsEntry.mk ("sda") 2 ("ext4") ("")])
    (some [MountEntry.mk ("sda") 1 ("/boot") (""), MountEntry.mk ("sda") 2 ("/") ("")])
    none


/-- Template that supplies only `PartitionLayout` (with nonsense
content that full disk validation would reject), and no value at the
misspelled key. -/
def tTypo : Template :=
  Template.mk ("local") ("file:///image.xz")
    (some [PartitionEntry.mk ("sda") 1 ("junk") ("bogus")])
    none none none none


/-- Well-formed template with partitions 2 and 10 on one disk, on which
the string sort key differs from numeric partition order. -/
def tOrd : Template :=
  Template.mk ("local") ("file:///image.xz")
    (some [PartitionEntry.mk ("sda") 2 ("512M") ("EFI"), PartitionEntry.mk ("sda") 10 ("512M") ("linux")])
    none
    (some [FsEntry.mk ("sda") 2 ("vfat") (""), FsEntry.mk ("sda") 10 ("ext4") ("")])
    (some [MountEntry.mk ("sda") 2 ("/boot") (""), MountEntry.mk ("sda") 10 ("/") ("")])
    none


/-- Well-formed template with a swap partition `(sda, 2)` that has no
`PartitionMountPoints` entry. -/
def tSwap : Template :=
  Template.mk ("local") ("file:///image.xz")
    (some [PartitionEntry.mk ("sda") 1 ("512M") ("EFI"), PartitionEntry.mk ("sda") 2 ("rest") ("swap")])
    none
    (some [FsEntry.mk ("sda") 1 ("vfat") (""), FsEntry.mk ("sda") 2 ("swap") ("")])
    (some [MountEntry.mk ("sda") 1 ("/") ("")])
    none

/-- A blkid snapshot in which both sda1 and sda2 carry UUIDs. -/
def linesSwap : List String :=
  ["/dev/sda1: UUID=\"53E0-AAAA\" TYPE=\"vfat\"",
   "/dev/sda2: UUID=\"6db56a42-0001-0002-0003-000400050006\" TYPE=\"swap\""]


/-- Template with one partition each of size 512M, 2G and 1T on three
distinct disks, exercising every unit multiplier and the offset reset
at each disk boundary. -/
def tSizes : Template :=
  Template.mk ("local") ("file:///image.xz")
    (some [PartitionEntry.mk ("sda") 1 ("512M") ("EFI"),
           PartitionEntry.mk ("sdb") 1 ("2G") ("linux"),
           PartitionEntry.mk ("sdc") 1 ("1T") ("linux")])
    none none none none

/-! ## Offset chaining (claim C7) -/

/-- The offset invariant of the planning loop, relative to the disk and
end offset of the previously planned partition: each entry starts at
the previous entry's end when it stays on the same disk, and at `0`
when the disk changes. -/
def chainedFrom (d : String) (s : Int) : List PlanEntry → Bool
  | [] => true
  | e :: rest => (e.start == if e.disk == d then s else 0) && chainedFrom e.disk e.stop rest

/-- Offset invariant of a whole plan: the first partition starts at 0
and every later one chains per `chainedFrom`. -/
def chainedTop : List PlanEntry → Bool
  | [] => true
  | e :: rest => (e.start == 0) && chainedFrom e.disk e.stop rest

/-! ## Helper lemmas -/

theorem planParts_chain :
    ∀ (es : List PartitionEntry) (cdisk : String) (s : Int) (l : List PlanEntry),
      planParts es cdisk (some s) = some l → chainedFrom cdisk s l = true := by
  intro es
  induction es with
  | nil =>
    intro cdisk s l h
    simp only [planParts, Option.some.injEq] at h
    subst h
    rfl
  | cons e rest ih =>
    intro cdisk s l h
    unfold planParts at h
    cases hd : (e.disk == cdisk) with
    | true =>
      simp only [hd, if_true] at h
      split at h
      · cases h
      · rename_i en hpe
        split at h
        · cases h
        · rename_i tail hrec
          simp only [Option.some.injEq] at h
          subst h
          unfold chainedFrom
          simp only [hd, if_true, beq_self_eq_true, Bool.true_and]
          exact ih e.disk en tail hrec
    | false =>
      simp only [hd, Bool.false_eq_true, if_false] at h
      split at h
      · cases h
      · rename_i en hpe
        split at h
        · cases h
        · rename_i tail hrec
          simp only [Option.some.injEq] at h
          subst h
          unfold chainedFrom
          simp only [hd, Bool.false_eq_true, if_false, beq_self_eq_true, Bool.true_and]
          exact ih e.disk en tail hrec

theorem planParts_chainTop :
    ∀ (es : List PartitionEntry) (l : List PlanEntry),
      planParts es "" none = some l → chainedTop l = true := by
  intro es l h
  cases es with
  | nil =>
    simp only [planParts, Option.some.injEq] at h
    subst h
    rfl
  | cons e rest =>
    unfold planParts at h
    cases hd : (e.disk == "") with
    | true => rw [hd] at h; simp at h
    | false =>
      simp only [hd, Bool.false_eq_true, if_false] at h
      split at h
      · cases h
      · rename_i en hpe
        split at h
        · cases h
        · rename_i tail hrec
          simp only [Option.some.injEq] at h
          subst h
          unfold chainedTop
          simp only [beq_self_eq_true, Bool.true_and]
          exact planParts_chain rest e.disk en tail hrec

theorem pyFindGo_neg_or_ge (sub : List Char) :
    ∀ (s : List Char) (i : Nat) (j : Int), pyFindGo sub s i = j → j = -1 ∨ (i : Int) ≤ j := by
  intro s
  induction s with
  | nil =>
    intro i j h
    unfold pyFindGo at h
    split at h
    · right
      omega
    · left
      omega
  | cons c t ih =>
    intro i j h
    unfold pyFindGo at h
    split at h
    · right
      omega
    · rcases ih (i + 1) j h with h1 | h1
      · left
        exact h1
      · right
        omega

theorem pyFindGo_zero_iff (sub : List Char) :
    ∀ (s : List Char) (i : Nat), pyFindGo sub s i = (i : Int) ↔ listStarts sub s = true := by
  intro s
  induction s with
  | nil =>
    intro i
    constructor
    · intro h
      unfold pyFindGo at h
      split at h
      · assumption
      · omega
    · intro h
      unfold pyFindGo
      simp [h]
  | cons c t ih =>
    intro i
    constructor
    · intro h
      unfold pyFindGo at h
      split at h
      · assumption
      · rcases pyFindGo_neg_or_ge sub t (i + 1) (i : Int) h with h1 | h1
        · omega
        · omega
    · intro h
      unfold pyFindGo
      simp [h]

theorem pyFind_zero_iff (s sub : String) :
    (pyFind s sub == 0) = strStarts sub s := by
  unfold pyFind strStarts
  cases h : listStarts sub.data s.data with
  | true =>
    have h2 := (pyFindGo_zero_iff sub.data s.data 0).mpr h
    simp only [Nat.cast_zero] at h2
    simp [h2]
  | false =>
    simp only [beq_eq_false_iff_ne, ne_eq]
    intro h0
    have h1 := (pyFindGo_zero_iff sub.data s.data 0).mp (by simpa using h0)
    rw [h1] at h
    cases h

theorem select_disk_sda_or_sdb (s : String) :
    select_disk s = "sda" ∨ select_disk s = "sdb" := by
  unfold select_disk
  split
  · right
    rfl
  · left
    rfl

/-! ## Claims C1, C2, C3 (dead validation checks, misspelled key) -/

/-- Claim C1.  The claim states that a duplicate `(disk, partition)`
key in `PartitionLayout` makes validation raise a duplicate-entry
error.  The code cannot: the tracking dict `pl_disk_to_parts` is only
ever appended to under a lookup guard requiring the key to already be
present (src lines 484-487), so it stays empty and the duplicate check
of src line 486 is unreachable.  `tDup` keys both layout entries
`(sdb, 1)` yet validates successfully. -/
theorem claim_C1 : validate_disk_template tDup = .ok () := by rfl

/-- Claim C2.  The claim states that full disk validation runs when at
least one of PartitionLayout / FilesystemTypes / PartitionMountPoints
is present.  Src line 580 tests the misspelled key `"ParitionLayout"`,
so a template supplying only `PartitionLayout` (here with content that
disk validation would reject) is instead given the synthesized default
layout, overwriting the supplied one. -/
theorem claim_C2 :
    validate_template ("sda") (fun _ => false) tTypo = .ok (insert_fs_defaults ("sda") tTypo) ∧
    validate_disk_template tTypo = .error ("Invalid template, missing FilesystemTypes") ∧
    (insert_fs_defaults ("sda") tTypo).partitionLayout ≠ tTypo.partitionLayout := by
  refine ⟨rfl, rfl, by decide⟩

/-- Claim C3.  The claim states a `"rest"`-sized partition that is not
the highest index on its disk fails validation.  The placement check of
src lines 493-497 iterates the never-populated `pl_disk_to_parts` dict
(see `claim_C1`), so `tRestBad` — whose `"rest"` partition is index 1
of 2 — validates successfully.  The claim's second half does hold: in
`tRestGood` the highest-indexed `"rest"` partition is planned with end
offset `-1`. -/
theorem claim_C3 :
    validate_disk_template tRestBad = .ok () ∧
    (create_partitions_plan tRestGood).map (List.map PlanEntry.stop) = some [512, -1] := by
  exact ⟨rfl, rfl⟩

/-! ## Claim C10 (disk resolver range and the select rule) -/

/-- Claim C10.  Every successful result of `find_target_disk` is
`"sda"` or `"sdb"`, and `select_disk` returns `"sdb"` exactly when its
argument starts with `"/dev/sda"` (the source phrases this as
`find(...) == 0`) and `"sda"` otherwise. -/
theorem claim_C10 :
    (∀ (env : Env) (d : String), find_target_disk env = .ok d → d = "sda" ∨ d = "sdb") ∧
    (∀ s : String, select_disk s = if strStarts ("/dev/sda") s then "sdb" else "sda") := by
  constructor
  · intro env d h
    unfold find_target_disk at h
    split at h
    · simp only [Except.ok.injEq] at h
      exact Or.inl h.symm
    · split at h
      · exact absurd h (by simp)
      · split at h
        · simp only [Except.ok.injEq] at h
          exact Or.inr h.symm
        · split at h
          · exact absurd h (by simp)
          · split at h
            · simp only [Except.ok.injEq] at h
              subst h
              exact select_disk_sda_or_sdb _
            · split at h
              · exact absurd h (by simp)
              · split at h
                · simp only [Except.ok.injEq] at h
                  subst h
                  exact select_disk_sda_or_sdb _
                · exact absurd h (by simp)
  · intro s
    unfold select_disk
    rw [pyFind_zero_iff]

/-- Witness for C10: a machine without `/dev/sda2` resolves to `sda`,
and the theorem places that result in the allowed range; the select
rule is also evaluated at a concrete line. -/
theorem claim_C10_witness :
    find_target_disk (Env.mk (fun _ => false) none none) = .ok ("sda") ∧
    ("sda" = "sda" ∨ "sda" = "sdb") ∧
    select_disk ("/dev/sda1 on / type ext4") = "sdb" := by
  refine ⟨rfl, claim_C10.1 (Env.mk (fun _ => false) none none) ("sda") rfl, ?_⟩
  rw [claim_C10.2]
  rfl

/-! ## Claim C7 (size arithmetic and offset chaining) -/

/-- Claim C7.  The unit multiplier map sends M to 1, G to 1024 and T to
1024·1024 MiB ("512M" becomes 512, "2G" 2048, "1T" 1048576, each
starting at offset 0 on its own disk in `tSizes`), and every plan the
partitioner produces chains offsets: the first partition starts at 0,
each later one starts at the previous partition's end offset when it
stays on the same disk and at 0 when the disk changes. -/
theorem claim_C7 :
    unitMult 'M' = some 1 ∧ unitMult 'G' = some 1024 ∧ unitMult 'T' = some 1048576 ∧
    (create_partitions_plan tSizes).map (List.map (fun e => (e.start, e.stop))) =
      some [(0, 512), (0, 2048), (0, 1048576)] ∧
    (∀ (t : Template) (l : List PlanEntry), create_partitions_plan t = some l → chainedTop l = true) := by
  refine ⟨rfl, rfl, rfl, rfl, ?_⟩
  intro t l h
  unfold create_partitions_plan at h
  cases hpl : t.partitionLayout with
  | none => rw [hpl] at h; cases h
  | some pl =>
    rw [hpl] at h
    exact planParts_chainTop (sortByKey pl) l h

/-- Witness for C7: the chaining invariant evaluated on the concrete
plan of `tRestGood`. -/
theorem claim_C7_witness :
    create_partitions_plan tRestGood =
      some [PlanEntry.mk ("sda") 1 ("EFI") ("fat32") 0 512,
            PlanEntry.mk ("sda") 2 ("linux") ("ext2") 512 (-1)] ∧
    chainedTop [PlanEntry.mk ("sda") 1 ("EFI") ("fat32") 0 512,
                PlanEntry.mk ("sda") 2 ("linux") ("ext2") 512 (-1)] = true := by
  exact ⟨rfl, claim_C7.2.2.2.2 tRestGood _ rfl⟩

/-! ## Claim C6 (command ordering and the EFI boot flag) -/

/-- Key of a plan entry, equal to the sort key of the layout entry it
was planned from. -/
def planKey (e : PlanEntry) : String :=
  e.disk ++ toString e.partition

/-- Consecutive sortedness of a plan under the string sort key the
source actually uses. -/
def keySortedB : List PlanEntry → Bool
  | [] => true
  | [_] => true
  | a :: b :: rest => strLe (planKey a) (planKey b) && keySortedB (b :: rest)

/-- Consecutive sortedness of layout entries under the same key. -/
def entKeySortedB : List PartitionEntry → Bool
  | [] => true
  | [_] => true
  | a :: b :: rest => strLe (pkey a) (pkey b) && entKeySortedB (b :: rest)

/-- Ordering stated by the claim: partitions of one disk are created in
ascending numeric partition-index order. -/
def numericOrderedB : List PlanEntry → Bool
  | [] => true
  | [_] => true
  | a :: b :: rest =>
    (!(a.disk == b.disk) || decide (a.partition < b.partition)) && numericOrderedB (b :: rest)

/-- The claim's adjacency property on the command stream: every
`mkpart` carrying the EFI type hint is immediately followed by a
boot-flag command for the same disk. -/
def efiAdjacentB : List Cmd → Bool
  | [] => true
  | Cmd.mkpart d fsh _ _ :: rest =>
    if fsh == "fat32" then
      match rest with
      | Cmd.setBoot d2 _ :: _ => d2 == d && efiAdjacentB rest
      | _ => false
    else efiAdjacentB rest
  | Cmd.setBoot _ _ :: rest => efiAdjacentB rest

/-- Per-partition block structure of the command stream relative to
the plan it was generated from: each planned partition contributes its
create command with exactly its own data, immediately followed — for
an EFI-role entry and before any further command — by the boot-flag
command for that same disk and that same partition index, and by
nothing otherwise.  (The create command itself does not name the
partition index, src lines 136-137, so the index of the matching
boot-flag command is read off the plan entry.) -/
def efiBlocksB : List PlanEntry → List Cmd → Bool
  | [], cmds => cmds.isEmpty
  | e :: rest, Cmd.mkpart d fsh s t :: cmds2 =>
    (d == e.disk && fsh == e.fsHint && s == e.start && t == e.stop) &&
    (if e.ptype == "EFI" then
       match cmds2 with
       | Cmd.setBoot d2 p2 :: cmds3 =>
         d2 == e.disk && p2 == e.partition && efiBlocksB rest cmds3
       | _ => false
     else efiBlocksB rest cmds2)
  | _ :: _, _ => false

theorem charsLe_total : ∀ (a b : List Char), charsLe a b = true ∨ charsLe b a = true := by
  intro a
  induction a with
  | nil => intro b; left; rfl
  | cons x xs ih =>
    intro b
    cases b with
    | nil => right; rfl
    | cons y ys =>
      unfold charsLe
      rcases Nat.lt_trichotomy x.toNat y.toNat with hlt | heq | hgt
      · left
        simp [hlt]
      · rcases ih ys with h | h
        · left
          simp [heq, h]
        · right
          simp [heq, h]
      · right
        simp [hgt]

theorem strLe_total (a b : String) : strLe a b = true ∨ strLe b a = true :=
  charsLe_total a.data b.data

theorem entKeySortedB_insert (x : PartitionEntry) :
    ∀ l, entKeySortedB l = true → entKeySortedB (insertByKey x l) = true := by
  intro l
  induction l with
  | nil => intro _; rfl
  | cons y ys ih =>
    intro h
    unfold insertByKey
    cases h1 : strLe (pkey y) (pkey x) with
    | false =>
      simp only [Bool.false_eq_true, if_false]
      have h2 : strLe (pkey x) (pkey y) = true := by
        rcases strLe_total (pkey x) (pkey y) with h2 | h2
        · exact h2
        · rw [h2] at h1; cases h1
      unfold entKeySortedB
      rw [h2, h]
      rfl
    | true =>
      simp only [if_true]
      cases ys with
      | nil =>
        unfold insertByKey entKeySortedB
        rw [h1]
        rfl
      | cons z zs =>
        have hyz : strLe (pkey y) (pkey z) = true := by
          unfold entKeySortedB at h
          exact (Bool.and_eq_true _ _).mp h |>.1
        have hzs : entKeySortedB (z :: zs) = true := by
          unfold entKeySortedB at h
          exact (Bool.and_eq_true _ _).mp h |>.2
        have htail := ih hzs
        unfold insertByKey at htail ⊢
        cases h2 : strLe (pkey z) (pkey x) with
        | true =>
          rw [h2] at htail
          simp only [if_true] at htail ⊢
          unfold entKeySortedB
          rw [hyz, htail]
          rfl
        | false =>
          rw [h2] at htail
          simp only [Bool.false_eq_true, if_false] at htail ⊢
          unfold entKeySortedB
          rw [h1, htail]
          rfl

theorem sortByKey_sorted : ∀ l, entKeySortedB (sortByKey l) = true := by
  intro l
  induction l with
  | nil => rfl
  | cons x xs ih => exact entKeySortedB_insert x (sortByKey xs) ih

theorem planParts_shape :
    ∀ (es : List PartitionEntry) (cdisk : String) (prev : Option Int) (l : List PlanEntry),
      planParts es cdisk prev = some l →
      l.map (fun e => (e.disk, e.partition)) = es.map (fun e => (e.disk, e.partition)) ∧
      ∀ e ∈ l, e.fsHint = hintOf e.ptype := by
  intro es
  induction es with
  | nil =>
    intro cdisk prev l h
    simp only [planParts, Option.some.injEq] at h
    subst h
    exact ⟨rfl, by intro e he; cases he⟩
  | cons e rest ih =>
    intro cdisk prev l h
    unfold planParts at h
    have main : ∀ (s : Int), (match partEnd e (some s) with
        | none => none
        | some en =>
          match planParts rest e.disk (some en) with
          | none => none
          | some tail =>
            some (PlanEntry.mk e.disk e.partition e.ptype (hintOf e.ptype) s en :: tail)) = some l →
        l.map (fun e => (e.disk, e.partition)) = (e :: rest).map (fun e => (e.disk, e.partition)) ∧
        ∀ x ∈ l, x.fsHint = hintOf x.ptype := by
      intro s h2
      split at h2
      · cases h2
      · rename_i en hpe
        split at h2
        · cases h2
        · rename_i tail hrec
          simp only [Option.some.injEq] at h2
          subst h2
          rcases ih e.disk (some en) tail hrec with ⟨hmap, hhint⟩
          constructor
          · simp only [List.map_cons, hmap]
          · intro x hx
            rcases List.mem_cons.mp hx with hx | hx
            · subst hx
              rfl
            · exact hhint x hx
    cases hd : (e.disk == cdisk) with
    | true =>
      simp only [hd, if_true] at h
      cases prev with
      | none => simp at h
      | some s => exact main s h
    | false =>
      simp only [hd, Bool.false_eq_true, if_false] at h
      exact main 0 h

theorem keySorted_of_map :
    ∀ (l : List PlanEntry) (es : List PartitionEntry),
      l.map (fun e => (e.disk, e.partition)) = es.map (fun e => (e.disk, e.partition)) →
      entKeySortedB es = true → keySortedB l = true := by
  intro l
  induction l with
  | nil => intro es _ _; rfl
  | cons a l2 ih =>
    intro es hmap hsort
    cases es with
    | nil => simp at hmap
    | cons e1 es2 =>
      simp only [List.map_cons, List.cons.injEq] at hmap
      rcases hmap with ⟨hpair1, hmap2⟩
      cases l2 with
      | nil => rfl
      | cons b l3 =>
        cases es2 with
        | nil => simp at hmap2
        | cons e2 es3 =>
          simp only [List.map_cons, List.cons.injEq] at hmap2
          rcases hmap2 with ⟨hpair2, hmap3⟩
          have h12 : strLe (pkey e1) (pkey e2) = true := by
            unfold entKeySortedB at hsort
            exact (Bool.and_eq_true _ _).mp hsort |>.1
          have hrest : entKeySortedB (e2 :: es3) = true := by
            unfold entKeySortedB at hsort
            exact (Bool.and_eq_true _ _).mp hsort |>.2
          have hkey1 : planKey a = pkey e1 := by
            unfold planKey pkey
            rw [(Prod.mk.injEq _ _ _ _).mp hpair1 |>.1, (Prod.mk.injEq _ _ _ _).mp hpair1 |>.2]
          have hkey2 : planKey b = pkey e2 := by
            unfold planKey pkey
            rw [(Prod.mk.injEq _ _ _ _).mp hpair2 |>.1, (Prod.mk.injEq _ _ _ _).mp hpair2 |>.2]
          unfold keySortedB
          rw [hkey1, hkey2, h12]
          rw [ih (e2 :: es3) (by simp only [List.map_cons, List.cons.injEq]; exact ⟨hpair2, hmap3⟩) hrest]
          rfl

theorem hintOf_fat32_iff (p : String) : (hintOf p == "fat32") = (p == "EFI") := by
  unfold hintOf
  cases h : (p == "EFI") with
  | true =>
    simp only [h, if_true]
    rfl
  | false =>
    simp only [h, Bool.false_eq_true, if_false]
    cases h2 : (p == "swap") with
    | true =>
      simp only [h2, if_true]
      rfl
    | false =>
      simp only [h2, Bool.false_eq_true, if_false]
      rfl

theorem efiAdjacent_planCmds :
    ∀ (l : List PlanEntry), (∀ e ∈ l, e.fsHint = hintOf e.ptype) →
      efiAdjacentB (planCmds l) = true := by
  intro l
  induction l with
  | nil => intro _; rfl
  | cons e rest ih =>
    intro hh
    have he : e.fsHint = hintOf e.ptype := hh e (List.mem_cons_self e rest)
    have hrest : ∀ x ∈ rest, x.fsHint = hintOf x.ptype := by
      intro x hx
      exact hh x (List.mem_cons_of_mem e hx)
    have hplan : planCmds (e :: rest) = entryCmds e ++ planCmds rest := by
      unfold planCmds
      simp
    rw [hplan]
    unfold entryCmds
    cases hefi : (e.ptype == "EFI") with
    | true =>
      have hfat : (e.fsHint == "fat32") = true := by
        rw [he, hintOf_fat32_iff, hefi]
      simp only [hefi, if_true, List.cons_append, List.singleton_append]
      unfold efiAdjacentB
      simp only [hfat, if_true, beq_self_eq_true, Bool.true_and]
      unfold efiAdjacentB
      exact ih hrest
    | false =>
      have hfat : (e.fsHint == "fat32") = false := by
        rw [he, hintOf_fat32_iff, hefi]
      simp only [hefi, Bool.false_eq_true, if_false, List.cons_append, List.nil_append]
      unfold efiAdjacentB
      simp only [hfat, Bool.false_eq_true, if_false]
      exact ih hrest

theorem efiBlocks_planCmds : ∀ (l : List PlanEntry), efiBlocksB l (planCmds l) = true := by
  intro l
  induction l with
  | nil => rfl
  | cons e rest ih =>
    have hplan : planCmds (e :: rest) = entryCmds e ++ planCmds rest := by
      unfold planCmds
      simp
    rw [hplan]
    unfold entryCmds
    cases hefi : (e.ptype == "EFI") with
    | true =>
      simp only [hefi, if_true, List.cons_append, List.singleton_append]
      unfold efiBlocksB
      simp only [hefi, if_true, beq_self_eq_true, Bool.true_and, Bool.and_self]
      exact ih
    | false =>
      simp only [hefi, Bool.false_eq_true, if_false, List.cons_append, List.nil_append]
      unfold efiBlocksB
      simp only [hefi, Bool.false_eq_true, if_false, beq_self_eq_true, Bool.true_and,
        Bool.and_self]
      exact ih

/-- Counterexample to C6 as stated: `tOrd` passes full disk validation,
yet its partitions 2 and 10 of disk sda are planned in the order
10, 2 — the string sort key `"sda10" < "sda2"` — so the create commands
are not in ascending numeric partition order. -/
theorem claim_C6_counterexample :
    validate_disk_template tOrd = .ok () ∧
    create_partitions_plan tOrd =
      some [PlanEntry.mk ("sda") 10 ("linux") ("ext2") 0 512,
            PlanEntry.mk ("sda") 2 ("EFI") ("fat32") 512 1024] ∧
    numericOrderedB [PlanEntry.mk ("sda") 10 ("linux") ("ext2") 0 512,
                     PlanEntry.mk ("sda") 2 ("EFI") ("fat32") 512 1024] = false := by
  exact ⟨rfl, rfl, rfl⟩

/-- Claim C6, amended: partition-create commands are issued in
ascending lexicographic order of the concatenated string key
`disk + str(partition)` (which agrees with per-disk ascending numeric
order only while it agrees lexicographically, e.g. for single-digit
indices), and immediately after the create command of an EFI-role
partition the boot-flag command for that same disk and that same
partition is issued before any further command (the per-entry block
structure `efiBlocksB`). -/
theorem claim_C6 :
    ∀ (t : Template) (l : List PlanEntry), create_partitions_plan t = some l →
      keySortedB l = true ∧ efiAdjacentB (planCmds l) = true ∧
      efiBlocksB l (planCmds l) = true := by
  intro t l h
  unfold create_partitions_plan at h
  cases hpl : t.partitionLayout with
  | none => rw [hpl] at h; cases h
  | some pl =>
    rw [hpl] at h
    rcases planParts_shape (sortByKey pl) "" none l h with ⟨hmap, hhint⟩
    refine ⟨?_, ?_, ?_⟩
    · exact keySorted_of_map l (sortByKey pl) hmap (sortByKey_sorted pl)
    · exact efiAdjacent_planCmds l hhint
    · exact efiBlocks_planCmds l

/-- Witness for the amended C6, evaluated on the concrete plan of
`tRestGood`. -/
theorem claim_C6_witness :
    create_partitions_plan tRestGood =
      some [PlanEntry.mk ("sda") 1 ("EFI") ("fat32") 0 512,
            PlanEntry.mk ("sda") 2 ("linux") ("ext2") 512 (-1)] ∧
    keySortedB [PlanEntry.mk ("sda") 1 ("EFI") ("fat32") 0 512,
                PlanEntry.mk ("sda") 2 ("linux") ("ext2") 512 (-1)] = true ∧
    efiAdjacentB (planCmds [PlanEntry.mk ("sda") 1 ("EFI") ("fat32") 0 512,
                            PlanEntry.mk ("sda") 2 ("linux") ("ext2") 512 (-1)]) = true ∧
    efiBlocksB [PlanEntry.mk ("sda") 1 ("EFI") ("fat32") 0 512,
                PlanEntry.mk ("sda") 2 ("linux") ("ext2") 512 (-1)]
      (planCmds [PlanEntry.mk ("sda") 1 ("EFI") ("fat32") 0 512,
                 PlanEntry.mk ("sda") 2 ("linux") ("ext2") 512 (-1)]) = true := by
  have h := claim_C6 tRestGood
    [PlanEntry.mk ("sda") 1 ("EFI") ("fat32") 0 512,
     PlanEntry.mk ("sda") 2 ("linux") ("ext2") 512 (-1)] rfl
  exact ⟨rfl, h.1, h.2.1, h.2.2⟩

/-! ## Claim C9 (boot loader entry: fourth line only) -/

theorem findRootUuid_some :
    ∀ (uuids : List ResolvedPart),
      (∀ p ∈ uuids, p.info.mount.isSome) →
      (∃ p ∈ uuids, p.info.mount = some "/") →
      ∃ u, findRootUuid uuids = some u ∧
        ∃ p ∈ uuids, p.info.mount = some "/" ∧ p.uuid = u := by
  intro uuids
  induction uuids with
  | nil =>
    intro _ hex
    rcases hex with ⟨p, hp, _⟩
    cases hp
  | cons q rest ih =>
    intro hall hex
    cases hm : q.info.mount with
    | none =>
      have := hall q (List.mem_cons_self q rest)
      rw [hm] at this
      cases this
    | some m =>
      by_cases hroot : m = "/"
      · subst hroot
        refine ⟨q.uuid, ?_, q, List.mem_cons_self q rest, hm, rfl⟩
        unfold findRootUuid
        rw [hm]
        simp
      · have hextail : ∃ p ∈ rest, p.info.mount = some "/" := by
          rcases hex with ⟨p, hp, hpm⟩
          rcases List.mem_cons.mp hp with hp | hp
          · subst hp
            rw [hm] at hpm
            simp only [Option.some.injEq] at hpm
            exact absurd hpm hroot
          · exact ⟨p, hp, hpm⟩
        have halltail : ∀ p ∈ rest, p.info.mount.isSome := by
          intro p hp
          exact hall p (List.mem_cons_of_mem q hp)
        rcases ih halltail hextail with ⟨u, hu, p, hp, hpm, hpu⟩
        refine ⟨u, ?_, p, List.mem_cons_of_mem q hp, hpm, hpu⟩
        unfold findRootUuid
        rw [hm]
        simp only [beq_iff_eq]
        rw [if_neg hroot]
        exact hu

/-- Claim C9.  For a resolved-partition list in which every entry has a
mount and some entry is mounted at `/`, and a loader entry file of at
least four lines, `update_loader` rewrites exactly the fourth line to
`options root=UUID=<root-uuid>` (the uuid of the first `/` entry) and
returns every other line unchanged. -/
theorem claim_C9 (uuids : List ResolvedPart) (lines : List String)
    (hmounts : ∀ p ∈ uuids, p.info.mount.isSome)
    (hroot : ∃ p ∈ uuids, p.info.mount = some "/")
    (hlen : 4 ≤ lines.length) :
    ∃ u, findRootUuid uuids = some u ∧
      (∃ p ∈ uuids, p.info.mount = some "/" ∧ p.uuid = u) ∧
      update_loader uuids lines = some (lines.set 3 ("options root=UUID=" ++ u ++ "\n")) ∧
      (lines.set 3 ("options root=UUID=" ++ u ++ "\n")).length = lines.length ∧
      (lines.set 3 ("options root=UUID=" ++ u ++ "\n"))[3]? = some ("options root=UUID=" ++ u ++ "\n") ∧
      ∀ i, i ≠ 3 → (lines.set 3 ("options root=UUID=" ++ u ++ "\n"))[i]? = lines[i]? := by
  rcases findRootUuid_some uuids hmounts hroot with ⟨u, hu, hwit⟩
  refine ⟨u, hu, hwit, ?_, ?_, ?_, ?_⟩
  · unfold update_loader
    rw [hu]
    dsimp only
    rw [if_neg (by omega)]
  · exact List.length_set ..
  · exact List.getElem?_set_eq_of_lt _ (by omega)
  · intro i hi
    exact List.getElem?_set_ne (by omega)

/-- Witness for C9 at a concrete two-entry list and four-line file. -/
theorem claim_C9_witness :
    (∀ p ∈ [ResolvedPart.mk (MergeRec.mk ("sda") 1 ("512M") ("vfat") (some ("/boot")) none) ("AAAA"),
            ResolvedPart.mk (MergeRec.mk ("sda") 2 ("rest") ("ext4") (some ("/")) none) ("BBBB")],
        p.info.mount.isSome) ∧
    (∃ u, findRootUuid
        [ResolvedPart.mk (MergeRec.mk ("sda") 1 ("512M") ("vfat") (some ("/boot")) none) ("AAAA"),
         ResolvedPart.mk (MergeRec.mk ("sda") 2 ("rest") ("ext4") (some ("/")) none) ("BBBB")] = some u ∧
      (∃ p ∈ [ResolvedPart.mk (MergeRec.mk ("sda") 1 ("512M") ("vfat") (some ("/boot")) none) ("AAAA"),
              ResolvedPart.mk (MergeRec.mk ("sda") 2 ("rest") ("ext4") (some ("/")) none) ("BBBB")],
          p.info.mount = some "/" ∧ p.uuid = u) ∧
      update_loader
        [ResolvedPart.mk (MergeRec.mk ("sda") 1 ("512M") ("vfat") (some ("/boot")) none) ("AAAA"),
         ResolvedPart.mk (MergeRec.mk ("sda") 2 ("rest") ("ext4") (some ("/")) none) ("BBBB")]
        ["title Clear\n", "kernel vmlinuz\n", "initrd initrd\n", "options root=PARTUUID=X\n"] =
        some (["title Clear\n", "kernel vmlinuz\n", "initrd initrd\n", "options root=PARTUUID=X\n"].set 3
          ("options root=UUID=" ++ u ++ "\n")) ∧
      (["title Clear\n", "kernel vmlinuz\n", "initrd initrd\n", "options root=PARTUUID=X\n"].set 3
          ("options root=UUID=" ++ u ++ "\n")).length =
        (["title Clear\n", "kernel vmlinuz\n", "initrd initrd\n", "options root=PARTUUID=X\n"] : List String).length ∧
      (["title Clear\n", "kernel vmlinuz\n", "initrd initrd\n", "options root=PARTUUID=X\n"].set 3
          ("options root=UUID=" ++ u ++ "\n"))[3]? = some ("options root=UUID=" ++ u ++ "\n") ∧
      ∀ i, i ≠ 3 →
        (["title Clear\n", "kernel vmlinuz\n", "initrd initrd\n", "options root=PARTUUID=X\n"].set 3
          ("options root=UUID=" ++ u ++ "\n"))[i]? =
        (["title Clear\n", "kernel vmlinuz\n", "initrd initrd\n", "options root=PARTUUID=X\n"] : List String)[i]?) := by
  constructor
  · decide
  · exact claim_C9
      [ResolvedPart.mk (MergeRec.mk ("sda") 1 ("512M") ("vfat") (some ("/boot")) none) ("AAAA"),
       ResolvedPart.mk (MergeRec.mk ("sda") 2 ("rest") ("ext4") (some ("/")) none) ("BBBB")]
      ["title Clear\n", "kernel vmlinuz\n", "initrd initrd\n", "options root=PARTUUID=X\n"]
      (by decide)
      ⟨ResolvedPart.mk (MergeRec.mk ("sda") 2 ("rest") ("ext4") (some ("/")) none) ("BBBB"),
        by decide, rfl⟩
      (by decide)

/-! ## Claim C4 (fstab content) -/

theorem update_fstab_shape :
    ∀ (uuids : List ResolvedPart) (out : List String),
      update_fstab_lines uuids = some out →
      out.length = uuids.length ∧
      ∀ i (hi : i < uuids.length), out[i]? = fstabLine (uuids.get ⟨i, hi⟩) := by
  intro uuids
  induction uuids with
  | nil =>
    intro out h
    simp only [update_fstab_lines, Option.some.injEq] at h
    subst h
    exact ⟨rfl, by intro i hi; simp at hi⟩
  | cons p rest ih =>
    intro out h
    unfold update_fstab_lines at h
    split at h
    · cases h
    · rename_i s hs
      split at h
      · cases h
      · rename_i tail htail
        simp only [Option.some.injEq] at h
        subst h
        rcases ih tail htail with ⟨hlen, hidx⟩
        constructor
        · simp [hlen]
        · intro i hi
          cases i with
          | zero =>
            simp only [List.getElem?_cons_zero, List.get]
            exact hs.symm
          | succ j =>
            simp only [List.getElem?_cons_succ, List.get]
            exact hidx j (by simpa using hi)

/-- Counterexample to C4 as stated: for an entry carrying the explicit
option string `"ro"`, the generated line is
`UUID=BBBB<TAB>/<TAB>ext4<TAB>ro` with no trailing ` 0 0` — the line
contains no `0` character at all, because the literal `0 0` lives only
inside the default option string of src line 282. -/
theorem claim_C4_counterexample :
    update_fstab_lines
      [ResolvedPart.mk (MergeRec.mk ("sda") 2 ("rest") ("ext4") (some ("/")) (some ("ro"))) ("BBBB")] =
      some ["UUID=BBBB\t/\text4\tro\n"] ∧
    ("UUID=BBBB\t/\text4\tro\n").data.contains '0' = false := by
  exact ⟨rfl, by decide⟩

/-- Claim C4, amended: `update_fstab` overwrites the mount-table file
with exactly one line per entry, in list order, each line
`UUID=<uuid>` TAB `<mount>` TAB `<fstype>` TAB `<options>` newline,
where `<options>` is the entry's explicit option string when truthy and
otherwise the whole default string `"rw,relatime 0 0"` — the ` 0 0`
suffix appears only through that default. -/
theorem claim_C4 :
    ∀ (uuids : List ResolvedPart) (out : List String),
      update_fstab_lines uuids = some out →
      out.length = uuids.length ∧
      (∀ i (hi : i < uuids.length), out[i]? = fstabLine (uuids.get ⟨i, hi⟩)) ∧
      (∀ p : ResolvedPart, ∀ m, p.info.mount = some m →
        (truthyS p.info.options = true →
          fstabLine p =
            some ("UUID=" ++ p.uuid ++ "\t" ++ m ++ "\t" ++ p.info.ftype ++ "\t" ++ p.info.options.getD ("") ++ "\n")) ∧
        (truthyS p.info.options = false →
          fstabLine p =
            some ("UUID=" ++ p.uuid ++ "\t" ++ m ++ "\t" ++ p.info.ftype ++ "\t" ++ "rw,relatime 0 0" ++ "\n"))) := by
  intro uuids out h
  rcases update_fstab_shape uuids out h with ⟨hlen, hidx⟩
  refine ⟨hlen, hidx, ?_⟩
  intro p m hm
  constructor
  · intro htr
    unfold fstabLine
    rw [hm]
    cases hop : p.info.options with
    | none => rw [hop] at htr; cases htr
    | some o =>
      rw [hop] at htr
      unfold truthyS at htr
      simp only [Bool.not_eq_true'] at htr
      dsimp only
      rw [htr]
      simp only [Bool.false_eq_true, if_false, Option.getD_some]
  · intro htr
    unfold fstabLine
    rw [hm]
    cases hop : p.info.options with
    | none => rfl
    | some o =>
      rw [hop] at htr
      unfold truthyS at htr
      simp only [Bool.not_eq_false'] at htr
      dsimp only
      rw [htr]
      simp only [if_true]

/-- Witness for the amended C4 on a two-entry list, one entry with
explicit options and one without. -/
theorem claim_C4_witness :
    update_fstab_lines
      [ResolvedPart.mk (MergeRec.mk ("sda") 1 ("512M") ("vfat") (some ("/boot")) none) ("AAAA"),
       ResolvedPart.mk (MergeRec.mk ("sda") 2 ("rest") ("ext4") (some ("/")) (some ("ro"))) ("BBBB")] =
      some ["UUID=AAAA\t/boot\tvfat\trw,relatime 0 0\n", "UUID=BBBB\t/\text4\tro\n"] ∧
    (["UUID=AAAA\t/boot\tvfat\trw,relatime 0 0\n", "UUID=BBBB\t/\text4\tro\n"] : List String).length =
      ([ResolvedPart.mk (MergeRec.mk ("sda") 1 ("512M") ("vfat") (some ("/boot")) none) ("AAAA"),
        ResolvedPart.mk (MergeRec.mk ("sda") 2 ("rest") ("ext4") (some ("/")) (some ("ro"))) ("BBBB")] : List ResolvedPart).length := by
  refine ⟨rfl, ?_⟩
  exact (claim_C4
    [ResolvedPart.mk (MergeRec.mk ("sda") 1 ("512M") ("vfat") (some ("/boot")) none) ("AAAA"),
     ResolvedPart.mk (MergeRec.mk ("sda") 2 ("rest") ("ext4") (some ("/")) (some ("ro"))) ("BBBB")]
    ["UUID=AAAA\t/boot\tvfat\trw,relatime 0 0\n", "UUID=BBBB\t/\text4\tro\n"] rfl).1

/-! ## Claim C5 (swap partitions in the resolved list) -/

/-- Keys contributed by the `PartitionMountPoints` list. -/
def pmKeys (pm : List MountEntry) : List String :=
  pm.map (fun p => layoutKey p.disk p.partition)

theorem assocGet_cons {β : Type} (k0 : String) (v0 : β) (rest : List (String × β)) (k2 : String) :
    assocGet ((k0, v0) :: rest) k2 = if k0 == k2 then some v0 else assocGet rest k2 := by
  unfold assocGet
  cases h : (k0 == k2) with
  | true =>
    rw [List.find?_cons_of_pos _ (by simpa using h)]
    simp [h]
  | false =>
    rw [List.find?_cons_of_neg _ (by simpa using h)]
    simp [h]

theorem assocGet_set {β : Type} :
    ∀ (m : List (String × β)) (k : String) (v : β) (k2 : String),
      assocGet (assocSet m k v) k2 = if k2 == k then some v else assocGet m k2 := by
  intro m
  induction m with
  | nil =>
    intro k v k2
    show assocGet [(k, v)] k2 = _
    rw [assocGet_cons]
    by_cases h : k2 = k
    · subst h
      simp
    · rw [if_neg (by simpa using Ne.symm h), if_neg (by simpa using h)]
  | cons kv rest ih =>
    intro k v k2
    rcases kv with ⟨k0, v0⟩
    show assocGet (if k0 == k then (k, v) :: rest else (k0, v0) :: assocSet rest k v) k2 = _
    by_cases h0 : k0 = k
    · subst h0
      rw [if_pos (by simp), assocGet_cons, assocGet_cons]
      by_cases h : k2 = k0
      · subst h
        simp
      · rw [if_neg (by simpa using Ne.symm h), if_neg (by simpa using h),
            if_neg (by simpa using Ne.symm h)]
    · rw [if_neg (by simpa using h0), assocGet_cons, ih k v k2, assocGet_cons]
      by_cases h2 : k0 = k2
      · subst h2
        rw [if_pos (by simp), if_neg (by simpa using h0), if_pos (by simp)]
      · rw [if_neg (by simpa using h2)]
        by_cases h3 : k2 = k
        · subst h3
          rw [if_pos (by simp), if_pos (by simp)]
        · rw [if_neg (by simpa using h3), if_neg (by simpa using h3), if_neg (by simpa using h2)]

/-- The merge maps of `get_uuids` keep each record under the key built
from its own disk and partition fields. -/
def KeyConsistent (m : List (String × MergeRec)) : Prop :=
  ∀ k r, assocGet m k = some r → layoutKey r.disk r.partition = k

theorem keyConsistent_nil : KeyConsistent [] := by
  intro k r h
  cases h

theorem keyConsistent_set {m : List (String × MergeRec)} {k : String} {v : MergeRec}
    (hm : KeyConsistent m) (hv : layoutKey v.disk v.partition = k) :
    KeyConsistent (assocSet m k v) := by
  intro k2 r hget
  rw [assocGet_set] at hget
  by_cases h : k2 = k
  · subst h
    rw [if_pos (by simp)] at hget
    simp only [Option.some.injEq] at hget
    subst hget
    exact hv
  · rw [if_neg (by simpa using h)] at hget
    exact hm k2 r hget

theorem mergeLayout_consistent :
    ∀ (pl : List PartitionEntry) (m : List (String × MergeRec)),
      KeyConsistent m → KeyConsistent (mergeLayout pl m) := by
  intro pl
  induction pl with
  | nil => intro m hm; exact hm
  | cons e rest ih =>
    intro m hm
    exact ih _ (keyConsistent_set hm rfl)

theorem mergeFs_consistent :
    ∀ (ft : List FsEntry) (m m2 : List (String × MergeRec)),
      mergeFs ft m = some m2 → KeyConsistent m → KeyConsistent m2 := by
  intro ft
  induction ft with
  | nil =>
    intro m m2 h hm
    simp only [mergeFs, Option.some.injEq] at h
    subst h
    exact hm
  | cons f rest ih =>
    intro m m2 h hm
    unfold mergeFs at h
    dsimp only at h
    split at h
    · cases h
    · rename_i r hr
      exact ih _ m2 h (keyConsistent_set hm (hm _ r hr))

theorem mergePm_props :
    ∀ (pm : List MountEntry) (m : List (String × MergeRec)) (used : List String)
      (m2 : List (String × MergeRec)) (used2 : List String),
      mergePm pm m used = some (m2, used2) → KeyConsistent m →
      KeyConsistent m2 ∧ used2 = used ++ pmKeys pm := by
  intro pm
  induction pm with
  | nil =>
    intro m used m2 used2 h hm
    simp only [mergePm, Option.some.injEq, Prod.mk.injEq] at h
    rcases h with ⟨h1, h2⟩
    subst h1
    subst h2
    exact ⟨hm, by simp [pmKeys]⟩
  | cons p rest ih =>
    intro m used m2 used2 h hm
    unfold mergePm at h
    dsimp only at h
    split at h
    · cases h
    · rename_i r hr
      rcases ih _ _ m2 used2 h (keyConsistent_set hm (hm _ r hr)) with ⟨hc, hu⟩
      refine ⟨hc, ?_⟩
      rw [hu]
      simp [pmKeys, List.append_assoc]

theorem scanLines_mem :
    ∀ (lines : List String) (m : List (String × MergeRec)) (used : List String)
      (out : List ResolvedPart),
      scanLines m used lines = some out →
      ∀ e ∈ out, ∃ dp, dp ∈ used ∧ assocGet m dp = some e.info := by
  intro lines
  induction lines with
  | nil =>
    intro m used out h e he
    simp only [scanLines, Option.some.injEq] at h
    subst h
    cases he
  | cons line rest ih =>
    intro m used out h e he
    unfold scanLines at h
    dsimp only at h
    cases hskip : strStarts ("/dev/nbd0") (dropLastStr ((pySplit ' ' line).headD (""))) with
    | true =>
      simp only [hskip, if_true] at h
      exact ih m used out h e he
    | false =>
      simp only [hskip, Bool.false_eq_true, if_false] at h
      cases hr : assocGet m (basenameStr (dropLastStr ((pySplit ' ' line).headD ("")))) with
      | none =>
        rw [hr] at h
        exact ih m used out h e he
      | some r =>
        rw [hr] at h
        dsimp only at h
        cases hc : (!(used.contains (basenameStr (dropLastStr ((pySplit ' ' line).headD ("")))))) with
        | true =>
          simp only [hc, if_true] at h
          exact ih m used out h e he
        | false =>
          simp only [hc, Bool.false_eq_true, if_false] at h
          cases hu : (uuidOfFields (pySplit ' ' line) == "") with
          | true =>
            simp only [hu, if_true] at h
            cases h
          | false =>
            simp only [hu, Bool.false_eq_true, if_false] at h
            cases hrec : scanLines m used rest with
            | none =>
              rw [hrec] at h
              cases h
            | some tail =>
              rw [hrec] at h
              dsimp only at h
              simp only [Option.some.injEq] at h
              subst h
              rcases List.mem_cons.mp he with he | he
              · subst he
                refine ⟨basenameStr (dropLastStr ((pySplit ' ' line).headD (""))), ?_, hr⟩
                have hc2 : List.contains used (basenameStr (dropLastStr ((pySplit ' ' line).headD ("")))) = true := by
                  cases hcc : List.contains used (basenameStr (dropLastStr ((pySplit ' ' line).headD ("")))) with
                  | true => rfl
                  | false => rw [hcc] at hc; cases hc
                exact List.elem_iff.mp hc2
              · exact ih m used tail hrec e he

/-- Counterexample to C5 as stated: `tSwap` validates, its swap
partition `(sda, 2)` has a blkid line with a UUID, yet the result of
`get_uuids` contains only the mounted partition `(sda, 1)` — the swap
entry is skipped because its key is missing from `used_disk_part`, the
keys of `PartitionMountPoints`. -/
theorem claim_C5_counterexample :
    validate_disk_template tSwap = .ok () ∧
    get_uuids tSwap linesSwap =
      some [ResolvedPart.mk (MergeRec.mk ("sda") 1 ("512M") ("vfat") (some ("/")) none) ("53E0-AAAA")] ∧
    ([ResolvedPart.mk (MergeRec.mk ("sda") 1 ("512M") ("vfat") (some ("/")) none) ("53E0-AAAA")].all
      (fun e => !(e.info.disk == "sda" && e.info.partition == 2))) = true := by
  exact ⟨rfl, rfl, rfl⟩

/-- Claim C5, amended: a `PartitionLayout` entry of role swap is given
mount `"none"` only in the intermediate merge map; it appears in the
list produced by `get_uuids` only when some `PartitionMountPoints`
entry shares its `(disk, partition)` key (which then overwrites the
mount).  In particular every entry of the result carries a key that
occurs among the `PartitionMountPoints` keys. -/
theorem claim_C5 :
    ∀ (t : Template) (lines : List String) (pm : List MountEntry) (out : List ResolvedPart),
      t.partitionMountPoints = some pm →
      get_uuids t lines = some out →
      ∀ e ∈ out, layoutKey e.info.disk e.info.partition ∈ pmKeys pm := by
  intro t lines pm out hpm h e he
  unfold get_uuids at h
  rw [hpm] at h
  cases hpl : t.partitionLayout with
  | none => rw [hpl] at h; simp at h
  | some pl =>
    rw [hpl] at h
    cases hft : t.filesystemTypes with
    | none => rw [hft] at h; simp at h
    | some ft =>
      rw [hft] at h
      dsimp only at h
      split at h
      · cases h
      · rename_i m1 hm1
        split at h
        · cases h
        · rename_i m2 used2 hm2
          have hc0 : KeyConsistent (mergeLayout pl []) := mergeLayout_consistent pl [] keyConsistent_nil
          have hc1 : KeyConsistent m1 := mergeFs_consistent ft _ m1 hm1 hc0
          rcases mergePm_props pm m1 [] m2 used2 hm2 hc1 with ⟨hc2, hu⟩
          rcases scanLines_mem lines m2 used2 out h e he with ⟨dp, hdp, hget⟩
          rw [hc2 dp e.info hget]
          rw [hu] at hdp
          simpa using hdp

/-- Witness for the amended C5: the key of the single entry resolved
for `tSwap` occurs among its mount-point keys. -/
theorem claim_C5_witness :
    tSwap.partitionMountPoints = some [MountEntry.mk ("sda") 1 ("/") ("")] ∧
    get_uuids tSwap linesSwap =
      some [ResolvedPart.mk (MergeRec.mk ("sda") 1 ("512M") ("vfat") (some ("/")) none) ("53E0-AAAA")] ∧
    ∀ e ∈ [ResolvedPart.mk (MergeRec.mk ("sda") 1 ("512M") ("vfat") (some ("/")) none) ("53E0-AAAA")],
      layoutKey e.info.disk e.info.partition ∈ pmKeys [MountEntry.mk ("sda") 1 ("/") ("")] := by
  exact ⟨rfl, rfl, claim_C5 tSwap linesSwap [MountEntry.mk ("sda") 1 ("/") ("")] _ rfl rfl⟩

/-! ## Claim C8 (user validation) -/

/-- Distinctness of a list relative to already-seen elements. -/
def freshFrom {α : Type} [BEq α] (seen : List α) : List α → Bool
  | [] => true
  | x :: xs => !(seen.contains x) && freshFrom (seen ++ [x]) xs

/-- The uid of a user as the source sees it: `0` (Python-falsy) counts
as absent. -/
def truthyUid (u : User) : Option Int :=
  match u.uid with
  | some n => if n == 0 then none else some n
  | none => none

/-- The username of a user as the source sees it: the empty string
counts as absent. -/
def truthyName (u : User) : Option String :=
  match u.username with
  | some s => if s == "" then none else some s
  | none => none

/-- Sudo condition with the source's truthiness reading: a nonempty
sudo value must equal `"password"`. -/
def sudoOk (u : User) : Bool :=
  !(truthyS u.sudoMode) || (u.sudoMode.getD ("") == "password")

/-- Uid condition with the source's truthiness reading: a nonzero uid
must lie in `[1, maxUid]`. -/
def uidOk (u : User) : Bool :=
  match truthyUid u with
  | some n => decide (1 ≤ n) && decide (n ≤ maxUid)
  | none => true

/-- Per-user condition of the claim, restated from the spec's words
with the source's truthiness reading: nonempty username, any nonzero
uid within `[1, maxUid]`, any nonempty sudo value equal to
`"password"`. -/
def c8UserOk (u : User) : Bool :=
  truthyS u.username && uidOk u && sudoOk u

/-- The claim's success condition relative to names and uids already
recorded by earlier loop iterations. -/
def c8Rel (users : List User) (unames : List String) (uids : List Int) : Bool :=
  users.all c8UserOk &&
  freshFrom unames (users.filterMap truthyName) &&
  freshFrom uids (users.filterMap truthyUid)

/-- Modelled from the spec: the claim's stated success condition, read
literally — every entry has a username (present key), usernames
pairwise distinct, present uids pairwise distinct and in
`[1, 2^32 - 1]`, and every present sudo value equal to `"password"`. -/
def c8ClaimPred (users : List User) : Bool :=
  users.all (fun u =>
    u.username.isSome &&
    (match u.uid with
     | some n => decide (1 ≤ n) && decide (n ≤ maxUid)
     | none => true) &&
    (match u.sudoMode with
     | some s => s == "password"
     | none => true)) &&
  freshFrom [] (users.filterMap User.username) &&
  freshFrom [] (users.filterMap User.uid)

/-- The claim's condition with the source's truthiness reading of
"present". -/
def c8AmendedPred (users : List User) : Bool :=
  c8Rel users [] []

theorem truthyName_of_truthy {u : User} (h : truthyS u.username = true) :
    truthyName u = some (u.username.getD ("")) := by
  cases hu : u.username with
  | none => rw [hu] at h; cases h
  | some s =>
    rw [hu] at h
    unfold truthyS at h
    simp only [Bool.not_eq_true'] at h
    unfold truthyName
    rw [hu]
    simp [h]

theorem c8_step_rest (f : String → Bool) (u : User) (rest : List User)
    (unames : List String) (uids2 : List Int) (name : String)
    (hk : truthyS u.sshKey = false) :
    ((if truthyS u.sshKey && !(f (u.sshKey.getD (""))) then
        Except.error ("urlopen failed for user key")
      else if truthyS u.sudoMode && !(u.sudoMode.getD ("") == "password") then
        Except.error ("Invalid sudo option")
      else validate_user_template f rest (unames ++ [name]) uids2) = Except.ok ()) ↔
    (sudoOk u = true ∧ validate_user_template f rest (unames ++ [name]) uids2 = .ok ()) := by
  rw [hk]
  simp only [Bool.false_and, Bool.false_eq_true, if_false]
  cases hs : (truthyS u.sudoMode && !(u.sudoMode.getD ("") == "password")) with
  | true =>
    simp only [hs, if_true]
    constructor
    · intro habs
      cases habs
    · intro h
      rcases h with ⟨hsud, _⟩
      rcases Bool.and_eq_true_iff.mp hs with ⟨hs1, hs2⟩
      unfold sudoOk at hsud
      rw [hs1] at hsud
      simp only [Bool.not_true, Bool.false_or] at hsud
      rw [hsud] at hs2
      cases hs2
  | false =>
    simp only [hs, Bool.false_eq_true, if_false]
    constructor
    · intro h
      refine ⟨?_, h⟩
      unfold sudoOk
      cases h1 : truthyS u.sudoMode with
      | false => rfl
      | true =>
        rw [h1] at hs
        simp only [Bool.true_and, Bool.not_eq_false'] at hs
        rw [hs]
        simp
    · intro h
      exact h.2

theorem freshFrom_cons {α : Type} [BEq α] (seen : List α) (x : α) (xs : List α) :
    freshFrom seen (x :: xs) = (!(seen.contains x) && freshFrom (seen ++ [x]) xs) := rfl

theorem validate_user_general :
    ∀ (users : List User) (f : String → Bool) (unames : List String) (uids : List Int),
      (∀ u ∈ users, truthyS u.sshKey = false) →
      (validate_user_template f users unames uids = .ok () ↔ c8Rel users unames uids = true) := by
  intro users
  induction users with
  | nil =>
    intro f unames uids _
    constructor
    · intro _
      rfl
    · intro _
      rfl
  | cons u rest ih =>
    intro f unames uids hkeys
    have hk : truthyS u.sshKey = false := hkeys u (List.mem_cons_self u rest)
    have hkrest : ∀ x ∈ rest, truthyS x.sshKey = false := by
      intro x hx
      exact hkeys x (List.mem_cons_of_mem u hx)
    unfold validate_user_template
    cases hn : truthyS u.username with
    | false =>
      simp only [hn, Bool.not_false, if_true]
      constructor
      · intro habs
        cases habs
      · intro habs
        unfold c8Rel c8UserOk at habs
        rw [List.all_cons, hn] at habs
        simp at habs
    | true =>
      simp only [hn, Bool.not_true, Bool.false_eq_true, if_false]
      have hname := truthyName_of_truthy hn
      cases hd : unames.contains (u.username.getD ("")) with
      | true =>
        simp only [hd, if_true]
        constructor
        · intro habs
          cases habs
        · intro habs
          unfold c8Rel at habs
          simp only [List.filterMap_cons, hname, freshFrom_cons, hd] at habs
          simp at habs
      | false =>
        simp only [hd, Bool.false_eq_true, if_false]
        cases hu : u.uid with
        | none =>
          have huid : truthyUid u = none := by
            unfold truthyUid
            rw [hu]
          have hcu : c8UserOk u = sudoOk u := by
            unfold c8UserOk uidOk
            rw [hn, huid]
            simp
          dsimp only
          rw [c8_step_rest f u rest unames uids (u.username.getD ("")) hk,
              ih f (unames ++ [u.username.getD ("")]) uids hkrest]
          unfold c8Rel
          simp only [List.all_cons, List.filterMap_cons, hname, huid, freshFrom_cons, hd, hcu,
            Bool.not_false, Bool.true_and, Bool.and_eq_true]
          tauto
        | some n =>
          cases hz : (n == 0) with
          | true =>
            have huid : truthyUid u = none := by
              unfold truthyUid
              rw [hu]
              dsimp only
              simp [hz]
            have hcu : c8UserOk u = sudoOk u := by
              unfold c8UserOk uidOk
              rw [hn, huid]
              simp
            simp only [hz, if_true]
            rw [c8_step_rest f u rest unames uids (u.username.getD ("")) hk,
                ih f (unames ++ [u.username.getD ("")]) uids hkrest]
            unfold c8Rel
            simp only [List.all_cons, List.filterMap_cons, hname, huid, freshFrom_cons, hd, hcu,
              Bool.not_false, Bool.true_and, Bool.and_eq_true]
            tauto
          | false =>
            have huid : truthyUid u = some n := by
              unfold truthyUid
              rw [hu]
              dsimp only
              simp [hz]
            simp only [hz, Bool.false_eq_true, if_false]
            cases hdup : uids.contains n with
            | true =>
              simp only [hdup, if_true]
              constructor
              · intro habs
                cases habs
              · intro habs
                unfold c8Rel at habs
                simp only [List.filterMap_cons, hname, huid, freshFrom_cons, hdup] at habs
                simp at habs
            | false =>
              simp only [hdup, Bool.false_eq_true, if_false]
              cases hrange : (decide (n < 1) || decide (n > maxUid)) with
              | true =>
                simp only [hrange, if_true]
                constructor
                · intro habs
                  cases habs
                · intro habs
                  unfold c8Rel at habs
                  simp only [List.all_cons, Bool.and_eq_true] at habs
                  have hcu : c8UserOk u = true := habs.1.1.1
                  unfold c8UserOk uidOk at hcu
                  rw [hn, huid] at hcu
                  simp only [Bool.true_and, Bool.and_eq_true, decide_eq_true_eq] at hcu
                  obtain ⟨⟨h6, h7⟩, _⟩ := hcu
                  rcases Bool.or_eq_true_iff.mp hrange with h5 | h5 <;>
                    simp only [decide_eq_true_eq] at h5 <;> omega
              | false =>
                simp only [hrange, Bool.false_eq_true, if_false]
                have hr : uidOk u = true := by
                  unfold uidOk
                  rw [huid]
                  rcases Bool.or_eq_false_iff.mp hrange with ⟨hr1, hr2⟩
                  simp only [decide_eq_false_iff_not] at hr1 hr2
                  simp only [Bool.and_eq_true, decide_eq_true_eq]
                  omega
                have hcu : c8UserOk u = sudoOk u := by
                  unfold c8UserOk
                  rw [hn, hr]
                  simp
                rw [c8_step_rest f u rest unames (uids ++ [n]) (u.username.getD ("")) hk,
                    ih f (unames ++ [u.username.getD ("")]) (uids ++ [n]) hkrest]
                unfold c8Rel
                simp only [List.all_cons, List.filterMap_cons, hname, huid, freshFrom_cons, hd,
                  hdup, hcu, Bool.not_false, Bool.true_and, Bool.and_eq_true]
                tauto

/-- Counterexample to C8 as stated: a single user carrying the present
uid `0` — outside the claimed range `[1, 2^32 - 1]` — passes
`validate_user_template`, because `if uid:` treats the Python-falsy
`0` as absent (src lines 554-561), while the claim's stated condition
is false for this list. -/
theorem claim_C8_counterexample :
    validate_user_template (fun _ => false)
      [User.mk (some ("alice")) (some 0) none none] [] [] = .ok () ∧
    c8ClaimPred [User.mk (some ("alice")) (some 0) none none] = false := by
  exact ⟨rfl, rfl⟩

/-- Claim C8, amended: for users carrying no SSH key URL, validation
succeeds if and only if every entry has a nonempty username, nonempty
usernames are pairwise distinct, uids that are present and nonzero are
pairwise distinct and lie in `[1, 2^32 - 1]`, and every nonempty sudo
value equals `"password"` — a uid of `0` and an empty sudo string are
treated by the source as absent. -/
theorem claim_C8 :
    ∀ (f : String → Bool) (users : List User),
      (∀ u ∈ users, truthyS u.sshKey = false) →
      (validate_user_template f users [] [] = .ok () ↔ c8AmendedPred users = true) := by
  intro f users h
  exact validate_user_general users f [] [] h

/-- Witness for the amended C8 on a concrete two-user list. -/
theorem claim_C8_witness :
    (∀ u ∈ [User.mk (some ("alice")) (some 5) none (some ("password")),
            User.mk (some ("bob")) none none none], truthyS u.sshKey = false) ∧
    (validate_user_template (fun _ => false)
        [User.mk (some ("alice")) (some 5) none (some ("password")),
         User.mk (some ("bob")) none none none] [] [] = .ok () ↔
      c8AmendedPred [User.mk (some ("alice")) (some 5) none (some ("password")),
                     User.mk (some ("bob")) none none none] = true) := by
  refine ⟨by decide, claim_C8 (fun _ => false) _ (by decide)⟩

end Ister
